import Mathlib

/-!
Verification development for the doctagger repository (classify-web).

We give a shallow embedding of the core components:
* `ClassiAPI` (src/doctagger/app/api/classi_client.py): rate limiting,
  empty-text short-circuit of `classify_text`, and memoization of
  `get_policies`.
* the per-file classification logic of `process_file`
  (src/doctagger/app/processor/file_processor.py): policy iteration,
  best-match / first-match selection, tagging outcome.
* the reader/tagger dispatch factories
  (src/doctagger/app/reader/reader_factory.py,
  src/doctagger/app/tagger/tagger_factory.py).
* the batch collector loop of `BatchProcessor.process_directory`
  (src/doctagger/app/processor/batch_processor.py).

Wall-clock times are modelled as rationals.  Network calls, file reads and
tagging are modelled by explicit oracle arguments recording what the
external world returned on each interaction.
-/

namespace Doctagger

/-! ## Rate limiter (`ClassiAPI._wait_for_rate_limit`)

The Python method, under the client lock, does:
```
current_time = time.time()                          -- our t1
request_times = [t for t in request_times if current_time - t < 60]
if len(request_times) >= max_requests_per_minute:
    oldest = min(request_times)
    wait = 60 - (current_time - oldest)
    if wait > 0: time.sleep(wait)
request_times.append(time.time())                   -- our t2
```
We model it as a pure function of the stored timestamp list and of the two
clock observations `t1` (the first `time.time()`) and `t2` (the second one,
after any sleep).  The sleeping itself constrains `t2`; that constraint is
captured by the admissibility predicate `stepOk` below.
-/

/-- The pruning step: keep timestamps younger than 60 seconds. -/
def pruneWindow (now : ℚ) (times : List ℚ) : List ℚ :=
  times.filter (fun t => decide (now - t < 60))

/-- `_wait_for_rate_limit` as a function of the stored list and the two
clock observations: prune, (possibly sleep — reflected in `t2`), append. -/
def waitForRateLimit (times : List ℚ) (t1 t2 : ℚ) : List ℚ :=
  pruneWindow t1 times ++ [t2]

/-- Number of recorded timestamps inside the trailing 60-second window
ending at `T` (the half-open interval from `T - 60` exclusive to `T`
inclusive). -/
def countWindow (T : ℚ) (times : List ℚ) : ℕ :=
  times.countP (fun t => decide (T - 60 < t ∧ t ≤ T))

/-- What the Python runtime guarantees about one `_wait_for_rate_limit`
call given stored list `times` and previous clock reading `lastObs`:
the clock is monotone (`lastObs ≤ t1 ≤ t2`), and when the pruned window is
full the sleep ran to at least `oldest + 60`, i.e. some pruned entry `m`
has `m + 60 ≤ t2`. -/
def stepOk (maxReq : ℕ) (times : List ℚ) (lastObs t1 t2 : ℚ) : Prop :=
  lastObs ≤ t1 ∧ t1 ≤ t2 ∧
    (maxReq ≤ (pruneWindow t1 times).length →
      ∃ m ∈ pruneWindow t1 times, m + 60 ≤ t2)

/-- Admissible traces of `_wait_for_rate_limit` calls: each element of the
trace is the pair of clock observations of one call, and the stored list
evolves by `waitForRateLimit`. -/
def admissibleFrom (maxReq : ℕ) : List ℚ → ℚ → List (ℚ × ℚ) → Prop
  | _, _, [] => True
  | times, lastObs, (t1, t2) :: rest =>
      stepOk maxReq times lastObs t1 t2 ∧
        admissibleFrom maxReq (waitForRateLimit times t1 t2) t2 rest

/-- The full history of recorded request timestamps of a trace: every call
appends exactly its second clock observation. -/
def historyOf (trace : List (ℚ × ℚ)) : List ℚ :=
  trace.map Prod.snd

/-! ## `ClassiAPI.classify_text` and `ClassiAPI.get_policies` -/

/-- `not text or len(text.strip()) == 0`: the text is empty or
whitespace-only. -/
def isBlank (text : String) : Bool :=
  text.data.all Char.isWhitespace

/-- A candidate hit returned by the classification endpoint. -/
structure PolicyMatch where
  id : String
  name : String
  confidence : ℚ
  deriving Repr, DecidableEq

/-- The JSON body of one classification call. -/
structure ClassificationResult where
  totalMatches : ℕ
  «matches» : List PolicyMatch
  deriving Repr, DecidableEq

/-- A policy as returned by the policies endpoint. -/
structure Policy where
  id : String
  name : String
  deriving Repr, DecidableEq

/-- What one `classify_text` call produced, seen from outside: the returned
body (or the raised exception message), the new `request_times` list, and
whether an HTTP request was issued. -/
structure ClassifyOutcome where
  response : Except String ClassificationResult
  requestTimes : List ℚ
  networkCalled : Bool
  deriving Repr

/-- `ClassiAPI.classify_text`.  The method first runs
`_wait_for_rate_limit` (observations `t1`, `t2`), **then** checks for
empty text and short-circuits; otherwise it performs the HTTP POST, whose
result is supplied by the oracle `net`. -/
def classify_text (times : List ℚ) (t1 t2 : ℚ) (text : String)
    (net : Except String ClassificationResult) : ClassifyOutcome :=
  let times' := waitForRateLimit times t1 t2
  if isBlank text then
    { response := .ok ⟨0, []⟩, requestTimes := times', networkCalled := false }
  else
    { response := net, requestTimes := times', networkCalled := true }

/-- The client state touched by `get_policies`. -/
structure PoliciesState where
  policies_cache : Option (List Policy)
  request_times : List ℚ
  netCalls : ℕ
  deriving Repr, DecidableEq

/-- `ClassiAPI.get_policies`: return the cache when populated; otherwise
wait for the rate limit, perform the HTTP GET (result supplied by the
oracle `net`), and cache the body on success. -/
def get_policies (st : PoliciesState) (t1 t2 : ℚ)
    (net : Except String (List Policy)) :
    Except String (List Policy) × PoliciesState :=
  match st.policies_cache with
  | some ps => (.ok ps, st)
  | none =>
    let times' := waitForRateLimit st.request_times t1 t2
    match net with
    | .ok ps =>
        (.ok ps, { policies_cache := some ps, request_times := times',
                   netCalls := st.netCalls + 1 })
    | .error e =>
        (.error e, { policies_cache := none, request_times := times',
                     netCalls := st.netCalls + 1 })

/-- Run a sequence of `get_policies` calls; each trace element carries the
two clock observations and the oracle answer that call would receive if it
reached the network. -/
def runGetPolicies (st : PoliciesState) :
    List (ℚ × ℚ × Except String (List Policy)) →
    List (Except String (List Policy)) × PoliciesState
  | [] => ([], st)
  | (t1, t2, net) :: rest =>
    let (r, st') := get_policies st t1 t2 net
    let (rs, st'') := runGetPolicies st' rest
    (r :: rs, st'')

/-! ## Per-file classification logic (`process_file`)

`process_file` iterates the policy list; for each policy it calls
`api.classify_text(document_text, policy.id)` inside a `try`.  A per-policy
exception is logged and the loop continues.  A successful call with
`totalMatches > 0` contributes the highest-confidence match of that policy
(Python `max`, which keeps the first maximum) as a `match_info` dict; with
`use_first_match` the loop `break`s right after the first append.  The
network interactions are abstracted by an oracle mapping policy ids to the
call's result (`.error` = raised exception).
-/

/-- One `match_info` dict appended to `all_matches`. -/
structure FileMatch where
  policy_id : String
  policy_name : String
  match_id : String
  match_name : String
  confidence : ℚ
  total_matches : ℕ
  deriving Repr, DecidableEq

/-- Python `max(matches, key=lambda x: x['confidence'])` on a nonempty
list: left fold keeping the current element unless a strictly larger
confidence appears, so the first maximum wins.  (On `[]` Python raises;
here that path yields `none`, which `runPolicies` routes to the same
continue-with-next-policy behaviour the surrounding `except` gives it.) -/
def maxByConfidence : List PolicyMatch → Option PolicyMatch
  | [] => none
  | x :: xs =>
      some (xs.foldl (fun acc y =>
        if acc.confidence < y.confidence then y else acc) x)

/-- Build the `match_info` dict of `process_file`. -/
def mkFileMatch (p : Policy) (best : PolicyMatch) (total : ℕ) : FileMatch :=
  { policy_id := p.id, policy_name := p.name, match_id := best.id,
    match_name := best.name, confidence := best.confidence,
    total_matches := total }

/-- The policy loop of `process_file`: returns `all_matches`. -/
def runPolicies (oracle : String → Except String ClassificationResult)
    (useFirstMatch : Bool) : List Policy → List FileMatch
  | [] => []
  | p :: ps =>
    match oracle p.id with
    | .error _ => runPolicies oracle useFirstMatch ps
    | .ok cr =>
      if 0 < cr.totalMatches then
        match maxByConfidence cr.«matches» with
        | some best =>
            let fm := mkFileMatch p best cr.totalMatches
            if useFirstMatch then [fm]
            else fm :: runPolicies oracle useFirstMatch ps
        | none => runPolicies oracle useFirstMatch ps
      else runPolicies oracle useFirstMatch ps

/-- Insert into a confidence-descending list, after every element with a
greater-or-equal confidence: combined with `sortByConfidenceDesc`'s
right fold this realises a stable descending sort, which is what Python's
`list.sort(key=..., reverse=True)` performs. -/
def insertByConfidenceDesc (x : FileMatch) : List FileMatch → List FileMatch
  | [] => [x]
  | y :: ys =>
      if x.confidence < y.confidence then y :: insertByConfidenceDesc x ys
      else x :: y :: ys

/-- `all_matches.sort(key=lambda x: x['confidence'], reverse=True)`. -/
def sortByConfidenceDesc : List FileMatch → List FileMatch
  | [] => []
  | x :: xs => insertByConfidenceDesc x (sortByConfidenceDesc xs)

/-- The selection step of `process_file` after the loop: empty matches →
`("safe", no confidence)`; first-match mode → head of `all_matches`;
best-match mode → head of the stable descending sort. -/
def selectClassification (useFirstMatch : Bool) (allMatches : List FileMatch) :
    String × Option ℚ :=
  match allMatches with
  | [] => ("safe", none)
  | m :: ms =>
    if useFirstMatch then (m.policy_name, some m.confidence)
    else
      match sortByConfidenceDesc (m :: ms) with
      | [] => ("safe", none)
      | t :: _ => (t.policy_name, some t.confidence)

/-! ## `process_file` end to end

The Python function builds a result dict; keys that are never assigned on
a given path are modelled as `none`.  External interactions become
explicit arguments:
* `readStep` — what `ReaderFactory.get_reader` + `reader.read_document`
  did (the factory raising is caught by the **outer** `except` and yields
  a bare error dict; `read_document` raising is caught by the inner
  `except` and yields `classification = "unknown"`);
* `policiesResp` — what `api.get_policies()` returned or raised (a raise
  is caught by the outer `except`);
* `oracle` — per-policy `classify_text` results;
* `tagResult` — `TaggerFactory.get_tagger` + `tag_document`: `.error` for
  a raise (caught by the outer `except`), `.ok b` for a returned bool. -/

inductive ReadStep where
  | factoryError (e : String)
  | readError (e : String)
  | ok (text : String)
  deriving Repr, DecidableEq

/-- The result dict of `process_file`. -/
structure FileOutcome where
  file : String
  error : Option String := none
  classification : Option String := none
  confidence : Option ℚ := none
  «matches» : Option (List FileMatch) := none
  matches_count : Option ℕ := none
  text_length : Option ℕ := none
  tagged : Option Bool := none
  deriving Repr, DecidableEq

/-- `process_file` (src/doctagger/app/processor/file_processor.py). -/
def process_file (file_path : String) (readStep : ReadStep)
    (policiesResp : Except String (List Policy))
    (oracle : String → Except String ClassificationResult)
    (tag_name : String) (no_tag : Bool) (use_first_match : Bool)
    (tagResult : Except String Bool) : FileOutcome :=
  let _ := tag_name
  match readStep with
  | .factoryError e =>
      { file := file_path, error := some ("Error processing file: " ++ e) }
  | .readError e =>
      { file := file_path, error := some ("Failed to read document: " ++ e),
        classification := some "unknown" }
  | .ok text =>
    if isBlank text then
      { file := file_path, error := some "Document contains no readable text",
        classification := some "unknown" }
    else
      match policiesResp with
      | .error e =>
          { file := file_path, error := some ("Error processing file: " ++ e) }
      | .ok policies =>
        let allMatches := runPolicies oracle use_first_match policies
        let sel := selectClassification use_first_match allMatches
        -- `result["matches"]` aliases `all_matches`, which best-match mode
        -- sorts in place after storing it.
        let storedMatches :=
          if use_first_match then allMatches
          else sortByConfidenceDesc allMatches
        let base : FileOutcome :=
          { file := file_path, text_length := some text.length,
            «matches» := some storedMatches,
            matches_count := some allMatches.length,
            classification := some sel.1, confidence := sel.2 }
        if no_tag then { base with tagged := some false }
        else
          match tagResult with
          | .ok b => { base with tagged := some b }
          | .error e =>
              { file := file_path,
                error := some ("Error processing file: " ++ e) }

/-! ## Reader / tagger dispatch factories -/

/-- The slice of filesystem metadata the factories inspect: whether the
path exists, the lower-cased suffix, the guessed MIME type, and the first
(up to) 512 bytes of content. -/
structure FileInfo where
  present : Bool
  ext : String
  mime : Option String
  header : List ℕ
  deriving Repr, DecidableEq

inductive ReaderKind where
  | text | pdf | office
  deriving Repr, DecidableEq

inductive TaggerKind where
  | text | pdf | office
  deriving Repr, DecidableEq

def officeMimes : List String :=
  [ "application/vnd.openxmlformats-officedocument.wordprocessingml.document",
    "application/vnd.openxmlformats-officedocument.spreadsheetml.sheet",
    "application/vnd.openxmlformats-officedocument.presentationml.presentation" ]

def officeExts : List String :=
  [".docx", ".xlsx", ".pptx", ".doc", ".xls", ".ppt"]

/-- `ReaderFactory.get_reader`: PDF by MIME or suffix, Office by MIME or
suffix, otherwise the text reader — with **no** content sniffing. -/
def get_reader (f : FileInfo) : Except String ReaderKind :=
  if ¬f.present then .error "File not found"
  else if f.mime = some "application/pdf" ∨ f.ext = ".pdf" then .ok .pdf
  else if f.mime ∈ officeMimes.map some ∨ f.ext ∈ officeExts then
    .ok .office
  else .ok .text

def text_extensions : List String :=
  [ ".txt", ".log", ".md", ".markdown", ".csv", ".tsv",
    ".py", ".js", ".ts", ".html", ".htm", ".css", ".xml", ".json",
    ".yaml", ".yml", ".ini", ".cfg", ".conf", ".sh", ".bash",
    ".bat", ".ps1", ".cmd", ".java", ".c", ".cpp", ".h", ".cs",
    ".go", ".rs", ".rb", ".pl", ".php", ".sql", ".lua", ".r",
    ".swift", ".kt", ".groovy", ".scala", ".tex" ]

def text_mime_types : List String :=
  [ "text/plain", "text/csv", "text/markdown", "text/html",
    "text/css", "text/xml", "application/json", "application/x-yaml",
    "application/javascript", "application/typescript",
    "text/x-python", "text/x-java", "text/x-c", "text/x-script",
    "text/x-shellscript", "application/x-sh", "application/x-bat" ]

/-- The office MIME list of `TaggerFactory` additionally covers the three
legacy Office types. -/
def officeTaggerMimes : List String :=
  officeMimes ++
    ["application/msword", "application/vnd.ms-excel",
     "application/vnd.ms-powerpoint"]

/-- Text-category test of `TaggerFactory.get_tagger`: extension in the
text list, or a MIME type that starts with `text/` or is in the text MIME
list. -/
def taggerTextCategory (f : FileInfo) : Bool :=
  f.ext ∈ text_extensions ||
    (match f.mime with
     | some m => m.startsWith "text/" || m ∈ text_mime_types
     | none => false)

/-- PDF-category test of `TaggerFactory.get_tagger`. -/
def taggerPdfCategory (f : FileInfo) : Bool :=
  f.ext == ".pdf" || f.mime == some "application/pdf"

/-- Office-category test of `TaggerFactory.get_tagger`. -/
def taggerOfficeCategory (f : FileInfo) : Bool :=
  f.ext ∈ officeExts || f.mime ∈ officeTaggerMimes.map some

/-- The byte test of the content sniff:
`32 <= b <= 126 or b in (9, 10, 13)`. -/
def isPrintableAscii (b : ℕ) : Bool :=
  (32 ≤ b && b ≤ 126) || b == 9 || b == 10 || b == 13

/-- `ascii_chars / len(header) > 0.8` over the first 512 bytes.  (On an
empty header Python raises `ZeroDivisionError`, caught by the surrounding
`except`, and control falls through to the Office tagger; rational
division by zero gives `0 > 0.8`, false, with the same effect.) -/
def sniffLooksText (header : List ℕ) : Bool :=
  decide (((header.countP isPrintableAscii : ℚ) / (header.length : ℚ)) >
    (8 : ℚ) / 10)

/-- `TaggerFactory.get_tagger`: text category first, then PDF, then
Office; for everything else sniff the first 512 bytes and use the text
tagger when more than 80% of them are printable ASCII, else the Office
tagger. -/
def get_tagger (f : FileInfo) : Except String TaggerKind :=
  if ¬f.present then .error "File not found"
  else if taggerTextCategory f then .ok .text
  else if taggerPdfCategory f then .ok .pdf
  else if taggerOfficeCategory f then .ok .office
  else if sniffLooksText f.header then .ok .text
  else .ok .office

/-! ## Batch collector (`BatchProcessor.process_directory`)

Every worker runs `process_file_worker`, whose `try`/`except` puts exactly
one dict on the results queue per dispatched file: the `process_file`
result, or `{"error": str(e), "file": ...}` if `process_file` itself
raised.  The collector drains the queue until it has seen one result per
file, treating any dict containing an `"error"` key as a failure record
and any other as a processed file.  We model the collector as a fold over
the (arbitrarily ordered) list of queue items. -/

/-- The statistics dict, minus the wall-clock fields. -/
structure BatchStats where
  total_files : ℕ
  processed_files : ℕ
  classification_results : List (String × ℕ)
  errors : List (String × String)
  deriving Repr, DecidableEq

/-- `classification_results[c] = classification_results.get(c, 0) + 1`. -/
def bumpCount (c : String) : List (String × ℕ) → List (String × ℕ)
  | [] => [(c, 1)]
  | (k, n) :: rest =>
      if k = c then (k, n + 1) :: rest else (k, n) :: bumpCount c rest

/-- One iteration of the collector loop on a drained queue item. -/
def collectResult (st : BatchStats) (r : FileOutcome) : BatchStats :=
  match r.error with
  | some e => { st with errors := st.errors ++ [(r.file, e)] }
  | none =>
      { st with
        processed_files := st.processed_files + 1
        classification_results :=
          bumpCount (r.classification.getD "safe") st.classification_results }

/-- The collector phase of `process_directory`: starting statistics plus a
fold over the queue items (one per dispatched file, in arrival order). -/
def process_directory (files : List String) (results : List FileOutcome) :
    BatchStats :=
  results.foldl collectResult
    { total_files := files.length, processed_files := 0,
      classification_results := [], errors := [] }

/-! # Helper lemmas -/

/-- Pruning a history already filtered at an older cutoff `c` is the same
as filtering the history at the new cutoff `t1 - 60`. -/
lemma pruneWindow_filter_history (history : List ℚ) (c t1 : ℚ)
    (hc : c ≤ t1 - 60) :
    pruneWindow t1 (history.filter (fun t => decide (c < t))) =
      history.filter (fun t => decide (t1 - 60 < t)) := by
  unfold pruneWindow
  rw [List.filter_filter]
  apply List.filter_congr
  intro a _
  by_cases h : t1 - 60 < a
  · have h1 : t1 - a < 60 := by linarith
    have h2 : c < a := by linarith
    simp [h, h1, h2]
  · have h1 : ¬ t1 - a < 60 := by linarith
    simp [h, h1]

/-- Appending one admissible timestamp keeps every trailing window at or
below the limit. -/
lemma countWindow_append_le (maxReq : ℕ) (history : List ℚ)
    (t1 t2 lastObs : ℚ)
    (h1 : ∀ T, countWindow T history ≤ maxReq)
    (h2 : ∀ h ∈ history, h ≤ lastObs)
    (hl1 : lastObs ≤ t1) (h12 : t1 ≤ t2)
    (hfull : maxReq ≤ (history.filter (fun t => decide (t1 - 60 < t))).length →
      ∃ m ∈ history.filter (fun t => decide (t1 - 60 < t)), m + 60 ≤ t2) :
    ∀ T, countWindow T (history ++ [t2]) ≤ maxReq := by
  intro T
  unfold countWindow at h1 ⊢
  rw [List.countP_append]
  by_cases ht2 : T - 60 < t2 ∧ t2 ≤ T
  case neg =>
    have : List.countP (fun t => decide (T - 60 < t ∧ t ≤ T)) [t2] = 0 := by
      simp [ht2]
    rw [this]
    simpa using h1 T
  case pos =>
    have hsingle : List.countP (fun t => decide (T - 60 < t ∧ t ≤ T)) [t2] = 1 := by
      simp [ht2.1, ht2.2]
    rw [hsingle]
    -- every timestamp in the window at `T` survives the prune at `t1`
    have hW1 : ∀ a : ℚ, (T - 60 < a ∧ a ≤ T) → t1 - 60 < a := by
      intro a ha
      have := ht2.1
      have := ht2.2
      linarith [ha.1]
    have heq : List.countP (fun t => decide (T - 60 < t ∧ t ≤ T)) history
        = List.countP (fun t => decide (T - 60 < t ∧ t ≤ T))
            (history.filter (fun t => decide (t1 - 60 < t))) := by
      rw [List.countP_filter]
      apply List.countP_congr
      intro a _
      by_cases hw : T - 60 < a ∧ a ≤ T
      · have := hW1 a hw
        simp [hw.1, hw.2, this]
      · simp [hw]
    rw [heq]
    set pruned := history.filter (fun t => decide (t1 - 60 < t)) with hpr
    by_cases hlen : pruned.length < maxReq
    · have hle : List.countP (fun t => decide (T - 60 < t ∧ t ≤ T)) pruned
          ≤ pruned.length := List.countP_le_length _
      omega
    · push_neg at hlen
      obtain ⟨m, hm, hm60⟩ := hfull hlen
      -- the pruned list sits inside the window ending at `t1`
      have hsub : pruned.length ≤ maxReq := by
        have hlf : pruned.length
            = List.countP (fun t => decide (t1 - 60 < t)) history := by
          rw [hpr, List.countP_eq_length_filter]
        rw [hlf]
        calc List.countP (fun t => decide (t1 - 60 < t)) history
            ≤ List.countP (fun t => decide (t1 - 60 < t ∧ t ≤ t1)) history := by
              apply List.countP_mono_left
              intro x hx hpx
              have hx1 : t1 - 60 < x := by simpa using hpx
              have hx2 : x ≤ t1 := le_trans (h2 x hx) hl1
              simp [hx1, hx2]
          _ ≤ maxReq := h1 t1
      -- every window member is strictly above `m`, and `m` is in `pruned`
      have hlt : List.countP (fun t => decide (T - 60 < t ∧ t ≤ T)) pruned
          < pruned.length := by
        have hmono : List.countP (fun t => decide (T - 60 < t ∧ t ≤ T)) pruned
            ≤ List.countP (fun t => decide (m < t)) pruned := by
          apply List.countP_mono_left
          intro x _ hpx
          have hx : T - 60 < x ∧ x ≤ T := by simpa using hpx
          have : m < x := by linarith [hx.1, ht2.2]
          simpa using this
        have hsplit := List.length_eq_countP_add_countP
          (p := fun t => decide (m < t)) pruned
        have hmem : 0 < List.countP (fun t => ¬ decide (m < t)) pruned := by
          rw [List.countP_pos_iff]
          exact ⟨m, hm, by simp⟩
        omega
      omega

/-- Main inductive invariant for admissible `_wait_for_rate_limit` traces:
if the stored list is the history filtered at cutoff `c`, the history
respects the window bound and is bounded by the last clock reading, then
the extended history still respects the bound. -/
lemma rateTraceInvariant (maxReq : ℕ) (trace : List (ℚ × ℚ)) :
    ∀ (history : List ℚ) (c lastObs : ℚ),
      (∀ T, countWindow T history ≤ maxReq) →
      (∀ h ∈ history, h ≤ lastObs) →
      c + 60 ≤ lastObs →
      admissibleFrom maxReq (history.filter (fun t => decide (c < t)))
        lastObs trace →
      ∀ T, countWindow T (history ++ historyOf trace) ≤ maxReq := by
  induction trace with
  | nil =>
      intro history c lastObs h1 _ _ _ T
      simpa [historyOf] using h1 T
  | cons step rest ih =>
      obtain ⟨t1, t2⟩ := step
      intro history c lastObs h1 h2 hc hadm T
      obtain ⟨⟨hl1, h12, hfull⟩, hrest⟩ := hadm
      have hc' : c ≤ t1 - 60 := by linarith
      have hprune := pruneWindow_filter_history history c t1 hc'
      rw [hprune] at hfull
      -- the new history respects the bound
      have h1' : ∀ T, countWindow T (history ++ [t2]) ≤ maxReq :=
        countWindow_append_le maxReq history t1 t2 lastObs h1 h2 hl1 h12 hfull
      have h2' : ∀ h ∈ history ++ [t2], h ≤ t2 := by
        intro h hh
        rcases List.mem_append.1 hh with hh | hh
        · exact le_trans (h2 h hh) (le_trans hl1 h12)
        · simp at hh; simp [hh]
      -- the new stored list is the new history filtered at cutoff t1 - 60
      have hstored : waitForRateLimit
            (history.filter (fun t => decide (c < t))) t1 t2
          = (history ++ [t2]).filter (fun t => decide (t1 - 60 < t)) := by
        unfold waitForRateLimit
        rw [hprune, List.filter_append]
        congr 1
        have : t1 - 60 < t2 := by linarith
        simp [this]
      rw [hstored] at hrest
      have hc2 : (t1 - 60) + 60 ≤ t2 := by linarith
      have := ih (history ++ [t2]) (t1 - 60) t2 h1' h2' hc2 hrest T
      simpa [historyOf, List.append_assoc] using this

/-- Once the cache is populated every later `get_policies` call returns it
and leaves the state untouched. -/
lemma runGetPolicies_cached (ps : List Policy)
    (trace : List (ℚ × ℚ × Except String (List Policy))) :
    ∀ st : PoliciesState, st.policies_cache = some ps →
      runGetPolicies st trace =
        (List.replicate trace.length (Except.ok ps), st) := by
  induction trace with
  | nil => intro st _; rfl
  | cons step rest ih =>
      obtain ⟨t1, t2, net⟩ := step
      intro st h
      simp [runGetPolicies, get_policies, h, ih st h, List.replicate_succ]

/-! # Claim theorems -/

/-- C1 counterexample: `classify_text` on the empty string with an empty
rate window does return `{totalMatches: 0, matches: []}` and makes no
network call, but the rate window is **not** the same after the call: the
`_wait_for_rate_limit` call at the top of the method has already appended
a timestamp before the empty-text check runs. -/
theorem c1_counterexample :
    (classify_text [] 0 0 "" (Except.error "boom")).response =
        Except.ok ⟨0, []⟩ ∧
    (classify_text [] 0 0 "" (Except.error "boom")).networkCalled = false ∧
    (classify_text [] 0 0 "" (Except.error "boom")).requestTimes = [0] ∧
    ((0 : ℚ) :: []) ≠ ([] : List ℚ) :=
  ⟨rfl, rfl, rfl, by simp⟩

/-- C1 amended: `classify_text` on empty or whitespace-only text returns
`{totalMatches: 0, matches: []}` and makes no network call, but it does
consume a rate-limit slot: the returned window is the pruned old window
with the new timestamp appended, exactly as for a non-empty text. -/
theorem c1_blank_short_circuit (times : List ℚ) (t1 t2 : ℚ) (text : String)
    (net : Except String ClassificationResult) (h : isBlank text = true) :
    classify_text times t1 t2 text net =
      { response := Except.ok ⟨0, []⟩,
        requestTimes := pruneWindow t1 times ++ [t2],
        networkCalled := false } := by
  simp [classify_text, waitForRateLimit, h]

/-- Witness for `c1_blank_short_circuit` at blank text `"   "`. -/
theorem c1_blank_short_circuit_witness :
    classify_text [] 0 0 "   " (Except.error "boom") =
      { response := Except.ok ⟨0, []⟩,
        requestTimes := pruneWindow 0 [] ++ [0],
        networkCalled := false } :=
  c1_blank_short_circuit [] 0 0 "   " (Except.error "boom") rfl

/-- C2: along every admissible sequence of `_wait_for_rate_limit` calls on
one client, every trailing 60-second window contains at most
`max_requests_per_minute` of the recorded request timestamps: the call
prunes entries older than 60 seconds and, when the window is full, sleeps
until the oldest pruned entry has aged out before recording the new
timestamp. -/
theorem c2_rate_window_bound (maxReq : ℕ) (start : ℚ)
    (trace : List (ℚ × ℚ))
    (hadm : admissibleFrom maxReq [] start trace) :
    ∀ T, countWindow T (historyOf trace) ≤ maxReq := by
  intro T
  have hbase : ∀ T, countWindow T ([] : List ℚ) ≤ maxReq := by
    intro T; simp [countWindow]
  have hmem : ∀ h ∈ ([] : List ℚ), h ≤ start := by intro h hh; simp at hh
  have hc : (start - 60) + 60 ≤ start := by linarith
  have hadm' : admissibleFrom maxReq
      (([] : List ℚ).filter (fun t => decide (start - 60 < t))) start trace := by
    simpa using hadm
  have := rateTraceInvariant maxReq trace [] (start - 60) start
    hbase hmem hc hadm' T
  simpa using this

/-- Witness for `c2_rate_window_bound`: limit 1, two calls; the second
call finds the window full and its recorded time 60 respects the sleep
bound; the window ending at 60 holds one timestamp. -/
theorem c2_rate_window_bound_witness :
    countWindow 60 (historyOf [((0 : ℚ), (0 : ℚ)), (5, 60)]) ≤ 1 := by
  refine c2_rate_window_bound 1 0 [((0 : ℚ), (0 : ℚ)), (5, 60)] ?_ 60
  refine ⟨⟨le_refl 0, le_refl 0, ?_⟩, ⟨⟨by norm_num, by norm_num, ?_⟩, trivial⟩⟩
  · intro h
    simp [pruneWindow] at h
  · intro _
    refine ⟨0, ?_, by norm_num⟩
    simp [waitForRateLimit, pruneWindow]
    norm_num

/-- C9: `get_policies` is memoized.  A call that finds the cache populated
returns the cached list and the *identical* state (no network call, no
rate-window change); and a run whose first call succeeds performs exactly
one network call over any number of invocations, every invocation
returning the fetched list, with the rate window advanced only by that
first call. -/
theorem c9_policies_memoized :
    (∀ (st : PoliciesState) (ps : List Policy) (t1 t2 : ℚ)
        (net : Except String (List Policy)),
        st.policies_cache = some ps →
        get_policies st t1 t2 net = (Except.ok ps, st)) ∧
    (∀ (rt : List ℚ) (n0 : ℕ) (t1 t2 : ℚ) (ps : List Policy)
        (rest : List (ℚ × ℚ × Except String (List Policy))),
        runGetPolicies ⟨none, rt, n0⟩ ((t1, t2, Except.ok ps) :: rest) =
          (Except.ok ps :: List.replicate rest.length (Except.ok ps),
           ⟨some ps, waitForRateLimit rt t1 t2, n0 + 1⟩)) := by
  constructor
  · intro st ps t1 t2 net h
    simp [get_policies, h]
  · intro rt n0 t1 t2 ps rest
    have h := runGetPolicies_cached ps rest
      ⟨some ps, waitForRateLimit rt t1 t2, n0 + 1⟩ rfl
    simp [runGetPolicies, get_policies, h]

/-- Witness for `c9_policies_memoized`: a cached client returns the cache
unchanged, and a fresh client answering one success plus one further call
issues exactly one network call. -/
theorem c9_policies_memoized_witness :
    get_policies ⟨some [], [], 3⟩ 0 0 (Except.error "down") =
      (Except.ok [], ⟨some [], [], 3⟩) ∧
    runGetPolicies ⟨none, [], 0⟩
        [((0 : ℚ), (0 : ℚ), Except.ok [⟨"p1", "P1"⟩]),
         (1, 1, Except.error "down")] =
      ([Except.ok [⟨"p1", "P1"⟩], Except.ok [⟨"p1", "P1"⟩]],
       ⟨some [⟨"p1", "P1"⟩], waitForRateLimit [] 0 0, 1⟩) :=
  ⟨c9_policies_memoized.1 ⟨some [], [], 3⟩ [] 0 0 (Except.error "down") rfl,
   c9_policies_memoized.2 [] 0 0 0 [⟨"p1", "P1"⟩]
     [(1, 1, Except.error "down")]⟩

/-! ## Stable descending sort lemmas -/

/-- The descending order used by the best-match selection. -/
def confGE (a b : FileMatch) : Prop := b.confidence ≤ a.confidence

lemma mem_insertByConfidenceDesc {z x : FileMatch} {l : List FileMatch} :
    z ∈ insertByConfidenceDesc x l ↔ z = x ∨ z ∈ l := by
  induction l with
  | nil => simp [insertByConfidenceDesc]
  | cons y ys ih =>
      unfold insertByConfidenceDesc
      by_cases h : x.confidence < y.confidence
      all_goals simp only [h, if_true, if_false, List.mem_cons, ih]
      all_goals tauto

lemma insertByConfidenceDesc_sorted (x : FileMatch) (l : List FileMatch)
    (h : l.Sorted confGE) :
    (insertByConfidenceDesc x l).Sorted confGE := by
  induction l with
  | nil => simp [insertByConfidenceDesc]
  | cons y ys ih =>
      rw [List.sorted_cons] at h
      unfold insertByConfidenceDesc
      by_cases hc : x.confidence < y.confidence
      · simp only [hc, if_true]
        rw [List.sorted_cons]
        constructor
        · intro z hz
          rcases mem_insertByConfidenceDesc.1 hz with hz | hz
          · subst hz; exact le_of_lt hc
          · exact h.1 z hz
        · exact ih h.2
      · simp only [hc, if_false]
        rw [List.sorted_cons]
        constructor
        · intro z hz
          rcases List.mem_cons.1 hz with hz | hz
          · subst hz; exact le_of_not_lt hc
          · exact le_trans (h.1 z hz) (le_of_not_lt hc)
        · rw [List.sorted_cons]
          exact h

lemma sortByConfidenceDesc_sorted (l : List FileMatch) :
    (sortByConfidenceDesc l).Sorted confGE := by
  induction l with
  | nil => simp [sortByConfidenceDesc]
  | cons x xs ih =>
      exact insertByConfidenceDesc_sorted x _ ih

lemma insertByConfidenceDesc_perm (x : FileMatch) (l : List FileMatch) :
    (insertByConfidenceDesc x l).Perm (x :: l) := by
  induction l with
  | nil => simp [insertByConfidenceDesc]
  | cons y ys ih =>
      unfold insertByConfidenceDesc
      by_cases h : x.confidence < y.confidence
      · simp only [h, if_true]
        exact (ih.cons y).trans (List.Perm.swap x y ys)
      · simp [h]

lemma sortByConfidenceDesc_perm (l : List FileMatch) :
    (sortByConfidenceDesc l).Perm l := by
  induction l with
  | nil => rfl
  | cons x xs ih =>
      exact (insertByConfidenceDesc_perm x _).trans (ih.cons x)

/-- Stability of the insertion into a sorted list, phrased per confidence
class: the earlier element `x` lands in front of every element with the
same confidence. -/
lemma filter_insertByConfidenceDesc (c : ℚ) (x : FileMatch)
    (l : List FileMatch) (h : l.Sorted confGE) :
    (insertByConfidenceDesc x l).filter (fun m => decide (m.confidence = c)) =
      if x.confidence = c then
        x :: l.filter (fun m => decide (m.confidence = c))
      else l.filter (fun m => decide (m.confidence = c)) := by
  induction l with
  | nil =>
      by_cases hx : x.confidence = c <;>
        simp [insertByConfidenceDesc, hx]
  | cons y ys ih =>
      rw [List.sorted_cons] at h
      unfold insertByConfidenceDesc
      by_cases hc : x.confidence < y.confidence
      · by_cases hy : y.confidence = c
        · have hx : ¬ x.confidence = c := by
            intro hx
            rw [hx, hy] at hc
            exact lt_irrefl c hc
          have hcc : x.confidence < c := by rw [← hy]; exact hc
          simp [hc, hy, hx, hcc, ih h.2]
        · by_cases hx : x.confidence = c
          · have hcc : c < y.confidence := by rw [← hx]; exact hc
            simp [hc, hy, hx, hcc, ih h.2]
          · simp [hc, hy, hx, ih h.2]
      · by_cases hx : x.confidence = c
        · have hcc : ¬ c < y.confidence := by rw [← hx]; exact hc
          simp [hc, hx, hcc]
        · simp [hc, hx]

/-- Stability of the sort: each confidence class keeps its original
(policy-iteration) order. -/
lemma sortByConfidenceDesc_stable (c : ℚ) (l : List FileMatch) :
    (sortByConfidenceDesc l).filter (fun m => decide (m.confidence = c)) =
      l.filter (fun m => decide (m.confidence = c)) := by
  induction l with
  | nil => rfl
  | cons x xs ih =>
      show (insertByConfidenceDesc x (sortByConfidenceDesc xs)).filter _ = _
      rw [filter_insertByConfidenceDesc c x _ (sortByConfidenceDesc_sorted xs),
        ih]
      by_cases hx : x.confidence = c <;> simp [List.filter_cons, hx]

/-- One unfolding step of the policy loop. -/
lemma runPolicies_cons (oracle : String → Except String ClassificationResult)
    (uf : Bool) (p : Policy) (ps : List Policy) :
    runPolicies oracle uf (p :: ps) =
      match oracle p.id with
      | .error _ => runPolicies oracle uf ps
      | .ok cr =>
        if 0 < cr.totalMatches then
          match maxByConfidence cr.«matches» with
          | some best =>
              let fm := mkFileMatch p best cr.totalMatches
              if uf then [fm] else fm :: runPolicies oracle uf ps
          | none => runPolicies oracle uf ps
        else runPolicies oracle uf ps := rfl

lemma runPolicies_append (oracle : String → Except String ClassificationResult)
    (ps1 ps2 : List Policy) :
    runPolicies oracle false (ps1 ++ ps2) =
      runPolicies oracle false ps1 ++ runPolicies oracle false ps2 := by
  induction ps1 with
  | nil => rfl
  | cons p ps ih =>
      rw [List.cons_append, runPolicies_cons, runPolicies_cons]
      cases ho : oracle p.id with
      | error e => simpa using ih
      | ok cr =>
          by_cases h : 0 < cr.totalMatches
          · cases hm : maxByConfidence cr.«matches» with
            | none => simpa [h, hm] using ih
            | some best => simp [h, hm, ih]
          · simpa [h] using ih

/-- Oracle of the worked example: policy id `"A"` yields one match at
confidence 0.9, policy id `"B"` one match at confidence 0.95. -/
def exampleOracle : String → Except String ClassificationResult :=
  fun pid =>
    if pid = "A" then Except.ok ⟨1, [⟨"mA", "MA", (9 : ℚ) / 10⟩]⟩
    else if pid = "B" then Except.ok ⟨1, [⟨"mB", "MB", (95 : ℚ) / 100⟩]⟩
    else Except.error "unknown policy"

/-- C3: best-match mode iterates all policies (the accumulated list over a
concatenation is the concatenation of the accumulations) and picks the
head of a stable confidence-descending sort (a permutation, sorted, each
confidence class keeping policy-iteration order); first-match mode stops
at the first appended `FileMatch`, which is the result; and on the worked
example with policies `[A (0.9), B (0.95)]` best-match yields `B` at 0.95
while first-match yields `A` at 0.9. -/
theorem c3_selection_modes :
    ((∀ l : List FileMatch, (sortByConfidenceDesc l).Perm l) ∧
     (∀ l : List FileMatch, (sortByConfidenceDesc l).Sorted confGE) ∧
     (∀ (c : ℚ) (l : List FileMatch),
        (sortByConfidenceDesc l).filter (fun m => decide (m.confidence = c)) =
          l.filter (fun m => decide (m.confidence = c)))) ∧
    (∀ (oracle : String → Except String ClassificationResult)
        (ps1 ps2 : List Policy),
        runPolicies oracle false (ps1 ++ ps2) =
          runPolicies oracle false ps1 ++ runPolicies oracle false ps2) ∧
    (∀ (oracle : String → Except String ClassificationResult)
        (p : Policy) (ps : List Policy) (cr : ClassificationResult)
        (best : PolicyMatch),
        oracle p.id = Except.ok cr → 0 < cr.totalMatches →
        maxByConfidence cr.«matches» = some best →
        runPolicies oracle true (p :: ps) =
            [mkFileMatch p best cr.totalMatches] ∧
          selectClassification true (runPolicies oracle true (p :: ps)) =
            (p.name, some best.confidence)) ∧
    (selectClassification false
        (runPolicies exampleOracle false [⟨"A", "A"⟩, ⟨"B", "B"⟩]) =
        ("B", some ((95 : ℚ) / 100)) ∧
     selectClassification true
        (runPolicies exampleOracle true [⟨"A", "A"⟩, ⟨"B", "B"⟩]) =
        ("A", some ((9 : ℚ) / 10))) := by
  refine ⟨⟨sortByConfidenceDesc_perm, sortByConfidenceDesc_sorted,
    sortByConfidenceDesc_stable⟩, runPolicies_append, ?_, ?_⟩
  · intro oracle p ps cr best h1 h2 h3
    have hrun : runPolicies oracle true (p :: ps) =
        [mkFileMatch p best cr.totalMatches] := by
      rw [runPolicies_cons, h1]
      simp [h2, h3]
    refine ⟨hrun, ?_⟩
    rw [hrun]
    simp [selectClassification, mkFileMatch]
  · constructor <;>
      norm_num [exampleOracle, runPolicies, selectClassification,
        maxByConfidence, sortByConfidenceDesc, insertByConfidenceDesc,
        mkFileMatch]

/-- Witness for `c3_selection_modes`: the first-match short-circuit
instantiated at the worked example's policy `A`. -/
theorem c3_selection_modes_witness :
    runPolicies exampleOracle true [⟨"A", "A"⟩, ⟨"B", "B"⟩] =
        [mkFileMatch ⟨"A", "A"⟩ ⟨"mA", "MA", (9 : ℚ) / 10⟩ 1] ∧
      selectClassification true
          (runPolicies exampleOracle true [⟨"A", "A"⟩, ⟨"B", "B"⟩]) =
        ("A", some ((9 : ℚ) / 10)) :=
  c3_selection_modes.2.2.1 exampleOracle ⟨"A", "A"⟩ [⟨"B", "B"⟩]
    ⟨1, [⟨"mA", "MA", (9 : ℚ) / 10⟩]⟩ ⟨"mA", "MA", (9 : ℚ) / 10⟩
    rfl (by decide) rfl

/-- One collector iteration moves exactly one unit of accounting: either
`processed_files` grows by one or one error record is appended, and
`total_files` is untouched. -/
lemma collectResult_arith (st : BatchStats) (r : FileOutcome) :
    (collectResult st r).processed_files +
        (collectResult st r).errors.length =
      st.processed_files + st.errors.length + 1 ∧
    (collectResult st r).total_files = st.total_files := by
  unfold collectResult
  cases r.error <;> simp <;> omega

/-- Folding the collector over the queue items adds exactly one unit per
item. -/
lemma collect_foldl_arith (results : List FileOutcome) :
    ∀ st : BatchStats,
      (results.foldl collectResult st).processed_files +
          (results.foldl collectResult st).errors.length =
        st.processed_files + st.errors.length + results.length ∧
      (results.foldl collectResult st).total_files = st.total_files := by
  induction results with
  | nil => intro st; simp
  | cons r rs ih =>
      intro st
      have h1 := collectResult_arith st r
      have h2 := ih (collectResult st r)
      simp only [List.foldl_cons, List.length_cons]
      omega

/-- C4: `process_directory` on N files reports `total_files = N`, and once
the collector has drained one queue item per dispatched file (each worker
emits exactly one result dict per file), `processed_files` plus the number
of error records equals N, independent of worker count or arrival
order. -/
theorem c4_batch_accounting (files : List String)
    (results : List FileOutcome) (h : results.length = files.length) :
    (process_directory files results).total_files = files.length ∧
    (process_directory files results).processed_files +
        (process_directory files results).errors.length = files.length := by
  unfold process_directory
  have := collect_foldl_arith results
    { total_files := files.length, processed_files := 0,
      classification_results := [], errors := [] }
  refine ⟨this.2, ?_⟩
  rw [this.1, h]
  simp

/-- Witness for `c4_batch_accounting`: two files, one processed outcome
and one error outcome. -/
theorem c4_batch_accounting_witness :
    (process_directory ["a", "b"]
        [{ file := "a", classification := some "safe" },
         { file := "b", error := some "boom" }]).total_files = 2 ∧
    (process_directory ["a", "b"]
        [{ file := "a", classification := some "safe" },
         { file := "b", error := some "boom" }]).processed_files +
      (process_directory ["a", "b"]
        [{ file := "a", classification := some "safe" },
         { file := "b", error := some "boom" }]).errors.length = 2 :=
  c4_batch_accounting ["a", "b"]
    [{ file := "a", classification := some "safe" },
     { file := "b", error := some "boom" }] rfl

/-- One unfolding step of the post-loop selection on a nonempty
accumulation. -/
lemma selectClassification_cons (uf : Bool) (m : FileMatch)
    (ms : List FileMatch) :
    selectClassification uf (m :: ms) =
      if uf then (m.policy_name, some m.confidence)
      else
        match sortByConfidenceDesc (m :: ms) with
        | [] => ("safe", none)
        | t :: _ => (t.policy_name, some t.confidence) := rfl

/-- A policy loop in which every call raises accumulates no matches. -/
lemma runPolicies_all_error
    (oracle : String → Except String ClassificationResult) (uf : Bool) :
    ∀ ps : List Policy, (∀ p ∈ ps, ∃ e, oracle p.id = Except.error e) →
      runPolicies oracle uf ps = [] := by
  intro ps
  induction ps with
  | nil => intro _; rfl
  | cons p ps ih =>
      intro h
      obtain ⟨e, he⟩ := h p (by simp)
      rw [runPolicies_cons, he]
      exact ih (fun q hq => h q (by simp [hq]))

/-- The oracle that raises on every policy. -/
def failingOracle : String → Except String ClassificationResult :=
  fun _ => Except.error "boom"

/-- C6 counterexample: a file whose only policy call raises ends up with
`classification = "safe"` and **no** `error` field in its outcome — the
per-policy failure is only logged, so it is dropped from every recorded
result, contradicting the claim that every failure path attaches an error
string to the file or to the batch return. -/
theorem c6_counterexample :
    (process_file "f.bin" (.ok "hello") (.ok [⟨"p", "P"⟩]) failingOracle
        "classification" true false (.ok true)).error = none ∧
    (process_file "f.bin" (.ok "hello") (.ok [⟨"p", "P"⟩]) failingOracle
        "classification" true false (.ok true)).classification =
      some "safe" :=
  ⟨rfl, rfl⟩

/-- C6 amended: a failing policy call never aborts the file — the loop
continues with the next policy — but the failure is only logged, never
attached to the outcome: a file all of whose policy calls raise is
reported `"safe"` with `error = none` (errors are recorded only for read
failures, empty text, a policies-fetch failure, a tagging exception, or a
worker fault). -/
theorem c6_policy_failures_logged_only :
    (∀ (oracle : String → Except String ClassificationResult) (uf : Bool)
        (p : Policy) (ps : List Policy) (e : String),
        oracle p.id = Except.error e →
        runPolicies oracle uf (p :: ps) = runPolicies oracle uf ps) ∧
    (∀ (fp text : String) (policies : List Policy)
        (oracle : String → Except String ClassificationResult)
        (tn : String) (uf : Bool),
        isBlank text = false →
        (∀ p ∈ policies, ∃ e, oracle p.id = Except.error e) →
        process_file fp (.ok text) (.ok policies) oracle tn true uf
            (.ok true) =
          { file := fp, text_length := some text.length,
            «matches» := some [], matches_count := some 0,
            classification := some "safe", confidence := none,
            tagged := some false }) := by
  constructor
  · intro oracle uf p ps e he
    rw [runPolicies_cons, he]
  · intro fp text policies oracle tn uf hb hall
    have hrun := runPolicies_all_error oracle uf policies hall
    simp [process_file, hb, hrun, selectClassification, sortByConfidenceDesc]

/-- Witness for `c6_policy_failures_logged_only` at a one-policy file
whose single call raises. -/
theorem c6_policy_failures_logged_only_witness :
    process_file "f.bin" (.ok "hello") (.ok [⟨"p", "P"⟩]) failingOracle
        "classification" true false (.ok true) =
      { file := "f.bin", text_length := some "hello".length,
        «matches» := some [], matches_count := some 0,
        classification := some "safe", confidence := none,
        tagged := some false } :=
  c6_policy_failures_logged_only.2 "f.bin" "hello" [⟨"p", "P"⟩]
    failingOracle "classification" false rfl
    (fun _ _ => ⟨"boom", rfl⟩)

/-- C7 counterexample: a policy literally named `"safe"` that matches at
confidence 0.9 produces a nonempty `FileMatch` list whose classification
is nevertheless `"safe"` — so `classification = "safe"` does not imply
that no `FileMatch` was produced, refuting the stated iff. -/
theorem c7_counterexample :
    selectClassification false
        [⟨"p1", "safe", "m1", "M1", (9 : ℚ) / 10, 1⟩] =
      ("safe", some ((9 : ℚ) / 10)) ∧
    ([⟨"p1", "safe", "m1", "M1", (9 : ℚ) / 10, 1⟩] : List FileMatch) ≠ [] := by
  exact ⟨rfl, by simp⟩

/-- C7 amended: the outcome pair (`classification = "safe"` **and**
`confidence = null`) is produced exactly when no `FileMatch` was
accumulated; classification alone can equal `"safe"` with a non-null
confidence when a policy named `"safe"` matches.  `process_file` copies
the selection's pair into the outcome verbatim on the tag-free path. -/
theorem c7_safe_outcome :
    (∀ (uf : Bool) (all : List FileMatch),
        selectClassification uf all = ("safe", none) ↔ all = []) ∧
    (∀ (fp text : String) (policies : List Policy)
        (oracle : String → Except String ClassificationResult)
        (tn : String) (uf : Bool),
        isBlank text = false →
        (process_file fp (.ok text) (.ok policies) oracle tn true uf
              (.ok true)).classification =
            some (selectClassification uf
              (runPolicies oracle uf policies)).1 ∧
          (process_file fp (.ok text) (.ok policies) oracle tn true uf
              (.ok true)).confidence =
            (selectClassification uf (runPolicies oracle uf policies)).2) := by
  constructor
  · intro uf all
    constructor
    · intro h
      cases all with
      | nil => rfl
      | cons m ms =>
          exfalso
          cases uf with
          | true =>
              rw [selectClassification_cons] at h
              simp at h
          | false =>
              rw [selectClassification_cons] at h
              simp only [Bool.false_eq_true, if_false] at h
              cases hs : sortByConfidenceDesc (m :: ms) with
              | nil =>
                  have hperm := sortByConfidenceDesc_perm (m :: ms)
                  rw [hs] at hperm
                  exact List.cons_ne_nil m ms hperm.symm.eq_nil
              | cons t ts =>
                  rw [hs] at h
                  simp at h
    · intro h
      subst h
      rfl
  · intro fp text policies oracle tn uf hb
    refine ⟨?_, ?_⟩ <;> simp [process_file, hb]

/-- Witness for `c7_safe_outcome`: the iff at the empty accumulation and
the outcome copy at a concrete no-match file. -/
theorem c7_safe_outcome_witness :
    (selectClassification false [] = ("safe", none) ↔
      ([] : List FileMatch) = []) ∧
    (process_file "a.txt" (.ok "hello") (.ok []) failingOracle "t"
          true false (.ok true)).classification =
        some (selectClassification false (runPolicies failingOracle false [])).1 :=
  ⟨c7_safe_outcome.1 false [],
   (c7_safe_outcome.2 "a.txt" "hello" [] failingOracle "t" false rfl).1⟩

/-- C8: when the classification stage succeeded and `tag_document`
returns `False`, the outcome records `tagged = false` while keeping the
classification-stage `classification`, `confidence` and match list
untouched, with no error — a tagging failure never flips the outcome to
an error. -/
theorem c8_tagging_failure_soft (fp text : String) (policies : List Policy)
    (oracle : String → Except String ClassificationResult)
    (tn : String) (uf : Bool) (hb : isBlank text = false) :
    process_file fp (.ok text) (.ok policies) oracle tn false uf
        (.ok false) =
      { file := fp, text_length := some text.length,
        «matches» := some (if uf then runPolicies oracle uf policies
          else sortByConfidenceDesc (runPolicies oracle uf policies)),
        matches_count := some (runPolicies oracle uf policies).length,
        classification :=
          some (selectClassification uf (runPolicies oracle uf policies)).1,
        confidence :=
          (selectClassification uf (runPolicies oracle uf policies)).2,
        tagged := some false } := by
  simp [process_file, hb]

/-- Witness for `c8_tagging_failure_soft` at a concrete file with no
policies. -/
theorem c8_tagging_failure_soft_witness :
    process_file "a.txt" (.ok "hello") (.ok []) failingOracle "t" false
        false (.ok false) =
      { file := "a.txt", text_length := some "hello".length,
        «matches» := some (if false then runPolicies failingOracle false []
          else sortByConfidenceDesc (runPolicies failingOracle false [])),
        matches_count := some (runPolicies failingOracle false []).length,
        classification :=
          some (selectClassification false
            (runPolicies failingOracle false [])).1,
        confidence :=
          (selectClassification false (runPolicies failingOracle false [])).2,
        tagged := some false } :=
  c8_tagging_failure_soft "a.txt" "hello" [] failingOracle "t" false rfl

/-- C10: when the tagging step raises (tagger selection or `tag_document`
faulting), the outer exception handler returns a dict holding only the
error string and the file path — the already-computed classification,
confidence and matches are all absent from the returned outcome. -/
theorem c10_tagging_exception_discards (fp text : String)
    (policies : List Policy)
    (oracle : String → Except String ClassificationResult)
    (tn : String) (uf : Bool) (e : String) (hb : isBlank text = false) :
    process_file fp (.ok text) (.ok policies) oracle tn false uf
        (.error e) =
      { file := fp, error := some ("Error processing file: " ++ e) } := by
  simp [process_file, hb]

/-- Witness for `c10_tagging_exception_discards` at a concrete file. -/
theorem c10_tagging_exception_discards_witness :
    process_file "a.txt" (.ok "hello") (.ok []) failingOracle "t" false
        false (.error "tagger blew up") =
      { file := "a.txt",
        error := some ("Error processing file: " ++ "tagger blew up") } :=
  c10_tagging_exception_discards "a.txt" "hello" [] failingOracle "t"
    false "tagger blew up" rfl

/-- The reader selector the claim describes, stated from the claim's
words for comparison with the source's `get_reader`: files outside the
PDF/Office categories are content-sniffed, treated as text above the 80%
printable-ASCII threshold and otherwise sent to the Office capability. -/
def claimedReaderSelect (f : FileInfo) : Except String ReaderKind :=
  if ¬f.present then .error "File not found"
  else if f.mime = some "application/pdf" ∨ f.ext = ".pdf" then .ok .pdf
  else if f.mime ∈ officeMimes.map some ∨ f.ext ∈ officeExts then
    .ok .office
  else if sniffLooksText f.header then .ok .text
  else .ok .office

/-- C5 counterexample: an existing `.bin` file of four NUL bytes matches
no category and fails the printable-ASCII sniff, so the claimed selector
falls back to the Office capability — but the source's `get_reader`
returns the text reader for it, performing no content sniff at all. -/
theorem c5_counterexample :
    get_reader ⟨true, ".bin", none, [0, 0, 0, 0]⟩ =
        Except.ok ReaderKind.text ∧
    claimedReaderSelect ⟨true, ".bin", none, [0, 0, 0, 0]⟩ =
        Except.ok ReaderKind.office ∧
    sniffLooksText [0, 0, 0, 0] = false := by
  refine ⟨rfl, ?_, ?_⟩
  · have hs : sniffLooksText [0, 0, 0, 0] = false := by
      simp [sniffLooksText, isPrintableAscii]
      norm_num
    simp [claimedReaderSelect, officeMimes, officeExts, hs]
  · simp [sniffLooksText, isPrintableAscii]
    norm_num

/-- C5 amended: only `TaggerFactory.get_tagger` performs the 512-byte
sniff — an existing file outside all tagger categories gets the text
tagger exactly when more than 80% of its sampled bytes are printable
ASCII (TAB/LF/CR included) and the Office tagger otherwise — while
`ReaderFactory.get_reader` never sniffs: every existing file outside the
PDF and Office reader categories gets the text reader regardless of
content. -/
theorem c5_dispatch (f : FileInfo) (hp : f.present = true) :
    (taggerTextCategory f = false → taggerPdfCategory f = false →
      taggerOfficeCategory f = false →
      get_tagger f = Except.ok (if sniffLooksText f.header
        then TaggerKind.text else TaggerKind.office)) ∧
    (¬(f.mime = some "application/pdf" ∨ f.ext = ".pdf") →
      ¬(f.mime ∈ officeMimes.map some ∨ f.ext ∈ officeExts) →
      get_reader f = Except.ok ReaderKind.text) := by
  constructor
  · intro h1 h2 h3
    simp [get_tagger, hp, h1, h2, h3, apply_ite]
  · intro h1 h2
    have ha := not_or.mp h2
    simp [get_reader, hp, h1]
    refine ⟨?_, ha.2⟩
    intro x hx hcontr
    exact ha.1 (hcontr ▸ List.mem_map_of_mem some hx)

/-- Witness for `c5_dispatch` at the four-NUL-byte `.bin` file. -/
theorem c5_dispatch_witness :
    get_tagger ⟨true, ".bin", none, [0, 0, 0, 0]⟩ =
        Except.ok (if sniffLooksText [0, 0, 0, 0] then TaggerKind.text
          else TaggerKind.office) ∧
    get_reader ⟨true, ".bin", none, [0, 0, 0, 0]⟩ =
        Except.ok ReaderKind.text :=
  ⟨(c5_dispatch ⟨true, ".bin", none, [0, 0, 0, 0]⟩ rfl).1 rfl rfl rfl,
   (c5_dispatch ⟨true, ".bin", none, [0, 0, 0, 0]⟩ rfl).2
     (by decide) (by decide)⟩

end Doctagger
